import Mathlib

/-
Verification of the storelet state container (src/unnamed/part_000) against
its specification.  The embedding translates the mutation queue, the flush
scheduler, the update batching and the hook/bridge guard into Lean, and
records the observable effects of a drain as an explicit event trace.
-/

namespace Storelet

variable {σ : Type}

/-- Modelled from the spec: one structural diff operation kind.  The external
snapshot engine (the mutative library, not part of this repository) reports
patches as op kind, path and value; the properties verified here only depend
on whether the patch list is empty, so a single replacement op suffices. -/
inductive PatchOp where
  | replace
deriving DecidableEq

/-- Modelled from the spec: a structural diff operation with its value. -/
structure Patch (σ : Type) where
  op : PatchOp
  value : σ
deriving DecidableEq

/-- Modelled from the spec: the patch output of the snapshot engine call in
`flush` (src/unnamed/part_000 lines 60-71).  When patch tracking is enabled
the engine returns the ordered diff between the old and the new value, which
is non-empty exactly when the step changed the state; when disabled the diff
computation is skipped and the result is the empty sequence. -/
def patchesFor [DecidableEq σ] (enable : Bool) (oldS newS : σ) : List (Patch σ) :=
  if enable then (if newS = oldS then [] else [⟨PatchOp.replace, newS⟩]) else []

/-- Observable effects of the drain loop, in the order the source emits them
(src/unnamed/part_000 lines 60-80): the mutator is invoked with the current
state as its second argument, the snapshot engine produces the new state, the
listener is called, the state reference is assigned, the deferred promise is
resolved, and setState is called. -/
inductive Event (σ : Type) where
  | mutatorCalled (oldArg : σ)
  | applied (oldS newS : σ)
  | listened (newS oldS : σ) (patches : List (Patch σ))
  | setRef (s : σ)
  | resolved (dpId : Nat) (s : σ)
  | setStateCalled (s : σ)
deriving DecidableEq

/-- One entry of `mutatorsQueue` (src/unnamed/part_000 lines 17-20).
`mutate` is the queued mutator applied to the current state (it may throw,
modelled as `Except.error`); `reentrantAdds` are the steps the mutator itself
enqueues while running (reentrant `add` calls, which in the source merely push
and return because the guard sees `isFlushing`); `dpId` identifies the
attached deferred promise, if any. -/
inductive QItem (σ : Type) : Type where
  | mk (mutate : σ → Except String σ) (reentrantAdds : σ → List (QItem σ)) (dpId : Option Nat)

def QItem.mutate : QItem σ → σ → Except String σ
  | .mk m _ _ => m

def QItem.reentrantAdds : QItem σ → σ → List (QItem σ)
  | .mk _ a _ => a

def QItem.dpId : QItem σ → Option Nat
  | .mk _ _ d => d

/-- The store context record (src/unnamed/part_000 lines 22-30, 40-45),
restricted to the fields the core operations touch. -/
structure StoreCtx (σ : Type) where
  state : σ
  hasProvider : Bool
  mutatorsQueue : List (QItem σ)
  isFlushing : Bool

/-- Result of running the drain loop body: the remaining queue, the state
reference, the `isFlushing` flag, the emitted events, and the exception that
escaped the loop, if any. -/
structure FlushOut (σ : Type) where
  queue : List (QItem σ)
  state : σ
  isFlushing : Bool
  events : List (Event σ)
  thrown : Option String

/-- Events of a single successful drain step, in source order
(src/unnamed/part_000 lines 60-80): mutator invocation with the current state
as `oldState` argument, engine application, listener call (when a listener was
supplied), state-reference assignment, deferred-promise resolution (when the
step carries one), then the `setState` bridge call. -/
def mkStepEvents [DecidableEq σ] (isDev hasListener : Bool) (dp : Option Nat)
    (oldS newS : σ) : List (Event σ) :=
  [Event.mutatorCalled oldS, Event.applied oldS newS]
    ++ (if hasListener then [Event.listened newS oldS (patchesFor isDev oldS newS)] else [])
    ++ [Event.setRef newS]
    ++ (match dp with
        | some i => [Event.resolved i newS]
        | none => [])
    ++ [Event.setStateCalled newS]

/-- The `while` body of `flush` (src/unnamed/part_000 lines 54-82), as a
fueled loop.  Each iteration shifts the head step, applies it to the current
state (throwing aborts the loop with `isFlushing` still `true` and the head
already removed), appends any steps enqueued reentrantly by the mutator or by
the listener, and recurses on the extended queue — the source re-reads
`this.mutatorsQueue.length` on every iteration.  An empty queue resets
`isFlushing` to `false`.  `isDev` is the `APP_ENV` check, `hasListener`
whether a listen callback was supplied, `listenerAdds` the steps the listener
enqueues reentrantly; fuel exhaustion yields `none`. -/
def flushLoop [DecidableEq σ] (isDev hasListener : Bool)
    (listenerAdds : σ → σ → List (QItem σ)) :
    Nat → List (QItem σ) → σ → Option (FlushOut σ)
  | _, [], s => some ⟨[], s, false, [], none⟩
  | 0, _ :: _, _ => none
  | fuel + 1, item :: rest, s =>
    match item.mutate s with
    | .error e => some ⟨rest, s, true, [], some e⟩
    | .ok newS =>
      match flushLoop isDev hasListener listenerAdds fuel
          (rest ++ item.reentrantAdds s
            ++ (if hasListener then listenerAdds s newS else [])) newS with
      | none => none
      | some out =>
        some ⟨out.queue, out.state, out.isFlushing,
              mkStepEvents isDev hasListener item.dpId s newS ++ out.events, out.thrown⟩

/-- `flush` (src/unnamed/part_000 lines 52-83): if a drain is already active
it returns immediately without touching anything; otherwise it runs the drain
loop and commits the resulting queue, state and flag into the context. -/
def flush [DecidableEq σ] (isDev hasListener : Bool)
    (listenerAdds : σ → σ → List (QItem σ)) (fuel : Nat) (ctx : StoreCtx σ) :
    Option (StoreCtx σ × List (Event σ) × Option String) :=
  if ctx.isFlushing then some (ctx, [], none)
  else
    match flushLoop isDev hasListener listenerAdds fuel ctx.mutatorsQueue ctx.state with
    | none => none
    | some out =>
      some ({ ctx with mutatorsQueue := out.queue, state := out.state,
                       isFlushing := out.isFlushing },
            out.events, out.thrown)

/-- `add` (src/unnamed/part_000 lines 47-50): push the step onto the queue
tail, then call `flush`. -/
def add [DecidableEq σ] (isDev hasListener : Bool)
    (listenerAdds : σ → σ → List (QItem σ)) (fuel : Nat) (item : QItem σ)
    (ctx : StoreCtx σ) : Option (StoreCtx σ × List (Event σ) × Option String) :=
  flush isDev hasListener listenerAdds fuel
    { ctx with mutatorsQueue := ctx.mutatorsQueue ++ [item] }

/-- A user-supplied mutator as `update` receives it: it gets the draft and
the immutable prior state (src/unnamed/part_000 line 9) and may throw. -/
abbrev UserMutator (σ : Type) : Type := σ → σ → Except String σ

/-- A pure mutator that only uses the draft, never throws and never enqueues
reentrantly. -/
def pureUM (m : σ → σ) : UserMutator σ := fun draft _ => Except.ok (m draft)

/-- A mutator that throws. -/
def throwUM (e : String) : UserMutator σ := fun _ _ => Except.error e

/-- The queue entry `flush` builds for a user mutator: the source invokes the
mutator as `mutator(draft, this.state)` (src/unnamed/part_000 lines 63, 69),
passing the context's current state for both the draft base and the second
argument. -/
def mkQItem (um : UserMutator σ) (dp : Option Nat) : QItem σ :=
  QItem.mk (fun s => um s s) (fun _ => []) dp

/-- The `mutators.forEach` body of `update` (src/unnamed/part_000 lines
100-106): every mutator is passed to `add` in order, and only the last one
carries the deferred promise.  A thrown exception propagates out of the
forEach, so the remaining mutators are not enqueued. -/
def updateLoop [DecidableEq σ] (isDev hasListener : Bool)
    (listenerAdds : σ → σ → List (QItem σ)) (fuel dpId : Nat) :
    List (UserMutator σ) → StoreCtx σ →
    Option (StoreCtx σ × List (Event σ) × Option String)
  | [], ctx => some (ctx, [], none)
  | um :: rest, ctx =>
    match add isDev hasListener listenerAdds fuel
        (mkQItem um (if rest.isEmpty then some dpId else none)) ctx with
    | none => none
    | some (ctx1, evs, some e) => some (ctx1, evs, some e)
    | some (ctx1, evs, none) =>
      match updateLoop isDev hasListener listenerAdds fuel dpId rest ctx1 with
      | none => none
      | some (ctx2, evs2, th) => some (ctx2, evs ++ evs2, th)

/-- `update` (src/unnamed/part_000 lines 98-108): creates one deferred
promise (identified by `dpId`), enqueues one step per mutator with the
promise attached only to the last, and returns.  The promise's settlements
are recovered from the event trace with `allResolutions`. -/
def update [DecidableEq σ] (isDev hasListener : Bool)
    (listenerAdds : σ → σ → List (QItem σ)) (fuel : Nat)
    (ums : List (UserMutator σ)) (dpId : Nat) (ctx : StoreCtx σ) :
    Option (StoreCtx σ × List (Event σ) × Option String) :=
  updateLoop isDev hasListener listenerAdds fuel dpId ums ctx

/-- Events emitted by an `update` call (empty when the fuel ran out). -/
def updateEvents [DecidableEq σ] (isDev hasListener : Bool)
    (listenerAdds : σ → σ → List (QItem σ)) (fuel : Nat)
    (ums : List (UserMutator σ)) (dpId : Nat) (ctx : StoreCtx σ) : List (Event σ) :=
  match update isDev hasListener listenerAdds fuel ums dpId ctx with
  | some (_, evs, _) => evs
  | none => []

/-- Events emitted by one `flush` of a queue (empty when the fuel ran out). -/
def flushEvents [DecidableEq σ] (isDev hasListener : Bool)
    (listenerAdds : σ → σ → List (QItem σ)) (fuel : Nat)
    (queue : List (QItem σ)) (s : σ) : List (Event σ) :=
  match flushLoop isDev hasListener listenerAdds fuel queue s with
  | some out => out.events
  | none => []

/-- A listener that enqueues nothing. -/
def noListenerAdds (σ : Type) : σ → σ → List (QItem σ) := fun _ _ => []

/-- A context in the Idle scheduler state with an empty queue and an
established provider bridge. -/
def idleCtx (s : σ) : StoreCtx σ := ⟨s, true, [], false⟩

/-- All promise resolutions in a trace, as promise id and resolved value. -/
def allResolutions (evs : List (Event σ)) : List (Nat × σ) :=
  evs.filterMap fun e =>
    match e with
    | .resolved i s => some (i, s)
    | _ => none

/-- The listener invocations in a trace, projected to the pair of the
`oldState` and `newState` fields of the listen data. -/
def listenedOldNew (evs : List (Event σ)) : List (σ × σ) :=
  evs.filterMap fun e =>
    match e with
    | .listened n o _ => some (o, n)
    | _ => none

/-- The patch lists passed to the listener, in invocation order. -/
def listenedPatches (evs : List (Event σ)) : List (List (Patch σ)) :=
  evs.filterMap fun e =>
    match e with
    | .listened _ _ p => some p
    | _ => none

/-- The second argument handed to each executed mutator, in order. -/
def mutatorArgs (evs : List (Event σ)) : List σ :=
  evs.filterMap fun e =>
    match e with
    | .mutatorCalled a => some a
    | _ => none

/-- Sequential application of pure mutators. -/
def applyAll (ms : List (σ → σ)) (s : σ) : σ :=
  ms.foldl (fun t m => m t) s

/-- The before and after states of each step when the pure mutators run in
order from a given state. -/
def runStates : List (σ → σ) → σ → List (σ × σ)
  | [], _ => []
  | m :: rest, s => (s, m s) :: runStates rest (m s)

/-- The state each step begins from, i.e. the output of the previous step. -/
def prefixStates : List (σ → σ) → σ → List σ
  | [], _ => []
  | m :: rest, s => s :: prefixStates rest (m s)

/-- The full event trace of a batch of pure mutators drained from a given
state, with the deferred promise attached to the last step. -/
def pureBatchEvents [DecidableEq σ] (isDev hasListener : Bool) (dpId : Nat) :
    List (σ → σ) → σ → List (Event σ)
  | [], _ => []
  | m :: rest, s =>
    mkStepEvents isDev hasListener (if rest.isEmpty then some dpId else none) s (m s)
      ++ pureBatchEvents isDev hasListener dpId rest (m s)

/-- The queue entries one `update` call with these mutators appends: one per
mutator, the deferred promise only on the last. -/
def mkBatchItems (dpId : Nat) : List (UserMutator σ) → List (QItem σ)
  | [] => []
  | um :: rest => mkQItem um (if rest.isEmpty then some dpId else none) :: mkBatchItems dpId rest

/-- The value `useStore` returns on success (src/unnamed/part_000 line 110);
the `update` capability is the `update` function above, closed over the
context, and is only constructed after the provider guard passes. -/
structure UseStoreHandle (σ : Type) where
  state : σ

/-- The error message thrown by `useStore` without a provider
(src/unnamed/part_000 line 95). -/
def missingProviderMessage : String :=
  "Component must be wrapped with \"connect(...)\""

/-- `useStore` (src/unnamed/part_000 lines 90-111): reads the context and
throws synchronously when no provider established the bridge; only past that
guard does it build and return the state and update capability. -/
def useStoreModel (ctx : StoreCtx σ) : Except String (UseStoreHandle σ) :=
  if ctx.hasProvider then Except.ok ⟨ctx.state⟩
  else Except.error missingProviderMessage

/-- The `initialState` argument of `createStore` (src/unnamed/part_000 line
33): a literal value or a zero-argument producer. -/
inductive InitialState (σ : Type) where
  | literal (s : σ)
  | producer (f : Unit → σ)

/-- One invocation of `stateReader` (src/unnamed/part_000 lines 36-38):
returns the state value together with the number of producer evaluations this
invocation performs (one when `initialState` is a function, none otherwise). -/
def runStateReader : InitialState σ → σ × Nat
  | .literal s => (s, 0)
  | .producer f => (f (), 1)

/-- Producer evaluations performed by `createStore` itself: line 41 runs
`stateReader()` once to seed `ContextBase.state`. -/
def createStoreProducerCalls (init : InitialState σ) : Nat :=
  (runStateReader init).2

/-- Modelled from React's documented `useState` lazy-initializer semantics
(external library): `connect` passes `stateReader` — always a function — to
`useState` (src/unnamed/part_000 line 115), so React invokes it once at each
mount of a connect-wrapped component. -/
def connectMountProducerCalls (init : InitialState σ) : Nat :=
  (runStateReader init).2

/-- Total producer evaluations after constructing the store and mounting a
connect-wrapped component the given number of times; no other container
operation touches `stateReader`. -/
def producerCallsAfterMounts (init : InitialState σ) (mounts : Nat) : Nat :=
  createStoreProducerCalls init + mounts * connectMountProducerCalls init

/-- The default context value used outside any provider
(src/unnamed/part_000 lines 40-45, 86-88): `hasProvider` is `false`. -/
def contextBase (init : InitialState σ) : StoreCtx σ :=
  { state := (runStateReader init).1, hasProvider := false,
    mutatorsQueue := [], isFlushing := false }

/-- Concrete one-field state for the documented counter scenarios. -/
structure CountState where
  count : Nat
deriving DecidableEq

/-- Whether an event is a deferred-promise resolution. -/
def isResolvedEv : Event σ → Bool
  | .resolved _ _ => true
  | _ => false

/-- Whether an event is a `setState` bridge call. -/
def isSetStateEv : Event σ → Bool
  | .setStateCalled _ => true
  | _ => false

/-- Whether an event is a listener invocation. -/
def isListenedEv : Event σ → Bool
  | .listened _ _ _ => true
  | _ => false

/-- Whether an event is a snapshot-engine application. -/
def isAppliedEv : Event σ → Bool
  | .applied _ _ => true
  | _ => false

/-- Whether an event is the state-reference assignment. -/
def isSetRefEv : Event σ → Bool
  | .setRef _ => true
  | _ => false

theorem isEmpty_map {α β : Type} (f : α → β) (l : List α) :
    (l.map f).isEmpty = l.isEmpty := by
  cases l <;> rfl

theorem applyAll_cons (m : σ → σ) (rest : List (σ → σ)) (s : σ) :
    applyAll (m :: rest) s = applyAll rest (m s) := rfl

theorem flushLoop_nil [DecidableEq σ] (isDev hasListener : Bool)
    (la : σ → σ → List (QItem σ)) (fuel : Nat) (s : σ) :
    flushLoop isDev hasListener la fuel [] s = some ⟨[], s, false, [], none⟩ := by
  cases fuel <;> rfl

theorem flushLoop_pure_singleton [DecidableEq σ] (isDev hasListener : Bool)
    (dp : Option Nat) (m : σ → σ) (s : σ) (fuel : Nat) :
    flushLoop isDev hasListener (noListenerAdds σ) (fuel + 1) [mkQItem (pureUM m) dp] s
      = some ⟨[], m s, false, mkStepEvents isDev hasListener dp s (m s), none⟩ := by
  simp [flushLoop, mkQItem, pureUM, QItem.mutate, QItem.reentrantAdds, QItem.dpId,
        noListenerAdds, flushLoop_nil]

theorem flush_flushing [DecidableEq σ] (isDev hasListener : Bool)
    (la : σ → σ → List (QItem σ)) (fuel : Nat) (ctx : StoreCtx σ) :
    flush isDev hasListener la fuel { ctx with isFlushing := true }
      = some ({ ctx with isFlushing := true }, [], none) := by
  simp [flush]

theorem add_flushing [DecidableEq σ] (isDev hasListener : Bool)
    (la : σ → σ → List (QItem σ)) (fuel : Nat) (item : QItem σ) (ctx : StoreCtx σ) :
    add isDev hasListener la fuel item { ctx with isFlushing := true }
      = some ({ ctx with isFlushing := true,
                         mutatorsQueue := ctx.mutatorsQueue ++ [item] }, [], none) := by
  simp [add, flush]

theorem add_pure_idle [DecidableEq σ] (isDev hasListener : Bool) (dp : Option Nat)
    (m : σ → σ) (s : σ) (fuel : Nat) :
    add isDev hasListener (noListenerAdds σ) (fuel + 1) (mkQItem (pureUM m) dp) (idleCtx s)
      = some (idleCtx (m s), mkStepEvents isDev hasListener dp s (m s), none) := by
  simp [add, flush, idleCtx, flushLoop_pure_singleton]

theorem updateLoop_pure [DecidableEq σ] (isDev hasListener : Bool) (dpId fuel : Nat)
    (ms : List (σ → σ)) :
    ∀ s : σ, updateLoop isDev hasListener (noListenerAdds σ) (fuel + 1) dpId
        (ms.map pureUM) (idleCtx s)
      = some (idleCtx (applyAll ms s), pureBatchEvents isDev hasListener dpId ms s, none) := by
  induction ms with
  | nil =>
    intro s
    simp [updateLoop, applyAll, pureBatchEvents]
  | cons m rest ih =>
    intro s
    simp only [List.map_cons, updateLoop, isEmpty_map, add_pure_idle]
    rw [ih (m s)]
    simp [pureBatchEvents, applyAll_cons]

theorem allResolutions_step [DecidableEq σ] (isDev hasListener : Bool)
    (dp : Option Nat) (s s' : σ) :
    allResolutions (mkStepEvents isDev hasListener dp s s')
      = (match dp with
         | some i => [(i, s')]
         | none => []) := by
  cases dp <;> cases hasListener <;> simp [mkStepEvents, allResolutions]

theorem listenedOldNew_step [DecidableEq σ] (isDev hasListener : Bool)
    (dp : Option Nat) (s s' : σ) :
    listenedOldNew (mkStepEvents isDev hasListener dp s s')
      = if hasListener then [(s, s')] else [] := by
  cases dp <;> cases hasListener <;> simp [mkStepEvents, listenedOldNew]

theorem listenedPatches_step [DecidableEq σ] (isDev hasListener : Bool)
    (dp : Option Nat) (s s' : σ) :
    listenedPatches (mkStepEvents isDev hasListener dp s s')
      = if hasListener then [patchesFor isDev s s'] else [] := by
  cases dp <;> cases hasListener <;> simp [mkStepEvents, listenedPatches]

theorem mutatorArgs_step [DecidableEq σ] (isDev hasListener : Bool)
    (dp : Option Nat) (s s' : σ) :
    mutatorArgs (mkStepEvents isDev hasListener dp s s') = [s] := by
  cases dp <;> cases hasListener <;> simp [mkStepEvents, mutatorArgs]

theorem allResolutions_append (a b : List (Event σ)) :
    allResolutions (a ++ b) = allResolutions a ++ allResolutions b := by
  simp [allResolutions]

theorem listenedOldNew_append (a b : List (Event σ)) :
    listenedOldNew (a ++ b) = listenedOldNew a ++ listenedOldNew b := by
  simp [listenedOldNew]

theorem listenedPatches_append (a b : List (Event σ)) :
    listenedPatches (a ++ b) = listenedPatches a ++ listenedPatches b := by
  simp [listenedPatches]

theorem mutatorArgs_append (a b : List (Event σ)) :
    mutatorArgs (a ++ b) = mutatorArgs a ++ mutatorArgs b := by
  simp [mutatorArgs]

theorem allResolutions_pureBatch [DecidableEq σ] (isDev hasListener : Bool)
    (dpId : Nat) (m : σ → σ) (rest : List (σ → σ)) :
    ∀ s : σ, allResolutions (pureBatchEvents isDev hasListener dpId (m :: rest) s)
      = [(dpId, applyAll (m :: rest) s)] := by
  induction rest generalizing m with
  | nil =>
    intro s
    rw [pureBatchEvents, pureBatchEvents, allResolutions_append, allResolutions_step]
    simp [allResolutions, applyAll]
  | cons r t ih =>
    intro s
    rw [pureBatchEvents, allResolutions_append, allResolutions_step, ih r (m s)]
    simp [applyAll_cons]

theorem listenedOldNew_pureBatch [DecidableEq σ] (isDev : Bool) (dpId : Nat)
    (ms : List (σ → σ)) :
    ∀ s : σ, listenedOldNew (pureBatchEvents isDev true dpId ms s) = runStates ms s := by
  induction ms with
  | nil => intro s; simp [pureBatchEvents, listenedOldNew, runStates]
  | cons m rest ih =>
    intro s
    rw [pureBatchEvents, listenedOldNew_append, listenedOldNew_step, ih (m s)]
    simp [runStates]

theorem listenedPatches_pureBatch [DecidableEq σ] (isDev : Bool) (dpId : Nat)
    (ms : List (σ → σ)) :
    ∀ s : σ, listenedPatches (pureBatchEvents isDev true dpId ms s)
      = (runStates ms s).map (fun p => patchesFor isDev p.1 p.2) := by
  induction ms with
  | nil => intro s; simp [pureBatchEvents, listenedPatches, runStates]
  | cons m rest ih =>
    intro s
    rw [pureBatchEvents, listenedPatches_append, listenedPatches_step, ih (m s)]
    simp [runStates]

theorem mutatorArgs_pureBatch [DecidableEq σ] (isDev hasListener : Bool) (dpId : Nat)
    (ms : List (σ → σ)) :
    ∀ s : σ, mutatorArgs (pureBatchEvents isDev hasListener dpId ms s)
      = prefixStates ms s := by
  induction ms with
  | nil => intro s; simp [pureBatchEvents, mutatorArgs, prefixStates]
  | cons m rest ih =>
    intro s
    rw [pureBatchEvents, mutatorArgs_append, mutatorArgs_step, ih (m s)]
    simp [prefixStates]

theorem flush_idle_nil [DecidableEq σ] (isDev hasListener : Bool)
    (la : σ → σ → List (QItem σ)) (fuel : Nat) (s : σ) :
    flush isDev hasListener la fuel (idleCtx s) = some (idleCtx s, [], none) := by
  simp [flush, idleCtx, flushLoop_nil]

theorem updateLoop_flushing [DecidableEq σ] (isDev hasListener : Bool)
    (la : σ → σ → List (QItem σ)) (fuel dpId : Nat) (ums : List (UserMutator σ)) :
    ∀ ctx : StoreCtx σ, ctx.isFlushing = true →
      updateLoop isDev hasListener la fuel dpId ums ctx
        = some ({ ctx with mutatorsQueue := ctx.mutatorsQueue ++ mkBatchItems dpId ums },
                [], none) := by
  induction ums with
  | nil =>
    intro ctx h
    simp [updateLoop, mkBatchItems]
  | cons um rest ih =>
    intro ctx h
    have hadd : add isDev hasListener la fuel
        (mkQItem um (if rest.isEmpty then some dpId else none)) ctx
        = some ({ ctx with mutatorsQueue := ctx.mutatorsQueue
                    ++ [mkQItem um (if rest.isEmpty then some dpId else none)] }, [], none) := by
      simp [add, flush, h]
    simp only [updateLoop, hadd]
    rw [ih _ (by simp [h])]
    simp [mkBatchItems, List.append_assoc]

/-- C1: for every non-empty sequence of mutators passed to a single `update`
call on an Idle container, the call drains without throwing, and the deferred
promise of the call is resolved exactly once — with the state obtained by
applying every mutator in the given order to the pre-call state.  The whole
trace contains exactly one resolution event, so intermediate mutator outputs
are never used to settle the promise. -/
theorem update_batch_resolves_once_with_final_state [DecidableEq σ]
    (isDev hasListener : Bool) (m : σ → σ) (rest : List (σ → σ))
    (s : σ) (dpId fuel : Nat) :
    update isDev hasListener (noListenerAdds σ) (fuel + 1)
        ((m :: rest).map pureUM) dpId (idleCtx s)
      = some (idleCtx (applyAll (m :: rest) s),
              pureBatchEvents isDev hasListener dpId (m :: rest) s, none)
    ∧ allResolutions (pureBatchEvents isDev hasListener dpId (m :: rest) s)
      = [(dpId, applyAll (m :: rest) s)] :=
  ⟨updateLoop_pure isDev hasListener dpId fuel (m :: rest) s,
   allResolutions_pureBatch isDev hasListener dpId m rest s⟩

/-- C2: when a listen callback is supplied to `createStore`, draining a batch
invokes the listener exactly once per mutation step, in the order the steps
were enqueued, with `oldState` equal to the state immediately before that
step and `newState` equal to the state immediately after it. -/
theorem listener_invoked_once_per_step_in_order [DecidableEq σ] (isDev : Bool)
    (ms : List (σ → σ)) (s : σ) (dpId fuel : Nat) :
    listenedOldNew (updateEvents isDev true (noListenerAdds σ) (fuel + 1)
        (ms.map pureUM) dpId (idleCtx s))
      = runStates ms s := by
  simp only [updateEvents, update, updateLoop_pure]
  exact listenedOldNew_pureBatch isDev dpId ms s

/-- C3: at most one drain loop is active per container.  A `flush` triggered
while a drain is active returns immediately without draining; an `add` made
during a drain appends the step and emits no effect; a step enqueued
reentrantly from inside a mutator is processed by the already-running loop,
which re-checks the queue each iteration and returns the scheduler to Idle
with an empty queue; the same holds for a step enqueued from inside the
change listener (shown on a concrete container over Nat). -/
theorem single_drain_loop_reentrant_adds_processed [DecidableEq σ]
    (isDev hasListener : Bool) (la : σ → σ → List (QItem σ)) (fuel : Nat)
    (ctx : StoreCtx σ) (item : QItem σ) (m₀ m₁ : σ → σ) (k : Nat) (s : σ) :
    flush isDev hasListener la fuel { ctx with isFlushing := true }
      = some ({ ctx with isFlushing := true }, [], none)
    ∧ add isDev hasListener la fuel item { ctx with isFlushing := true }
      = some ({ ctx with isFlushing := true,
                         mutatorsQueue := ctx.mutatorsQueue ++ [item] }, [], none)
    ∧ flush false true (noListenerAdds σ) (fuel + 2)
        ⟨s, true, [QItem.mk (fun t => Except.ok (m₀ t))
                     (fun _ => [mkQItem (pureUM m₁) (some k)]) none], false⟩
      = some (idleCtx (m₁ (m₀ s)),
              [Event.mutatorCalled s, Event.applied s (m₀ s),
               Event.listened (m₀ s) s [], Event.setRef (m₀ s),
               Event.setStateCalled (m₀ s),
               Event.mutatorCalled (m₀ s), Event.applied (m₀ s) (m₁ (m₀ s)),
               Event.listened (m₁ (m₀ s)) (m₀ s) [], Event.setRef (m₁ (m₀ s)),
               Event.resolved k (m₁ (m₀ s)), Event.setStateCalled (m₁ (m₀ s))],
              none)
    ∧ flush false true
        (fun old _ => if old = 0 then [mkQItem (pureUM fun n => n + 10) none] else [])
        2 ⟨(0 : Nat), true, [mkQItem (pureUM fun n => n + 1) none], false⟩
      = some (idleCtx 11,
              [Event.mutatorCalled 0, Event.applied 0 1, Event.listened 1 0 [],
               Event.setRef 1, Event.setStateCalled 1,
               Event.mutatorCalled 1, Event.applied 1 11, Event.listened 11 1 [],
               Event.setRef 11, Event.setStateCalled 11],
              none) :=
  ⟨flush_flushing isDev hasListener la fuel ctx,
   add_flushing isDev hasListener la fuel item ctx,
   by simp [flush, flushLoop, mkQItem, pureUM, QItem.mutate, QItem.reentrantAdds,
            QItem.dpId, noListenerAdds, flushLoop_nil, mkStepEvents, patchesFor,
            idleCtx],
   by simp [flush, flushLoop, mkQItem, pureUM, QItem.mutate, QItem.reentrantAdds,
            QItem.dpId, flushLoop_nil, mkStepEvents, patchesFor, idleCtx]⟩

/-- C4 counterexample: in a concrete single-step update with a listener and a
completion signal, the promise-resolution event occurs at index 4 of the
trace and the `setState` propagation at index 5, so the claim that the new
state is propagated to the setState bridge before the completion signal is
resolved is false of the code. -/
theorem resolve_before_setstate_counterexample :
    List.findIdx isResolvedEv (updateEvents true true (noListenerAdds Nat) 1
        [pureUM fun _ => 1] 7 (idleCtx 0)) = 4
    ∧ List.findIdx isSetStateEv (updateEvents true true (noListenerAdds Nat) 1
        [pureUM fun _ => 1] 7 (idleCtx 0)) = 5
    ∧ ¬ (List.findIdx isSetStateEv (updateEvents true true (noListenerAdds Nat) 1
            [pureUM fun _ => 1] 7 (idleCtx 0))
          < List.findIdx isResolvedEv (updateEvents true true (noListenerAdds Nat) 1
            [pureUM fun _ => 1] 7 (idleCtx 0))) := by
  decide

/-- C4 amended: within each drain-loop step the effects occur in this order:
the mutator is invoked (snapshot engine application), the change listener is
called, the state reference is set, then — if the step carries a completion
signal — the signal is resolved with the new state, and only after that is
the new state propagated to the setState presentation bridge. -/
theorem step_effect_order_resolve_then_setstate [DecidableEq σ] (isDev : Bool)
    (m : σ → σ) (s : σ) (i fuel : Nat) :
    flushEvents isDev true (noListenerAdds σ) (fuel + 1)
        [mkQItem (pureUM m) (some i)] s
      = [Event.mutatorCalled s, Event.applied s (m s),
         Event.listened (m s) s (patchesFor isDev s (m s)),
         Event.setRef (m s), Event.resolved i (m s),
         Event.setStateCalled (m s)] := by
  simp only [flushEvents, flushLoop_pure_singleton]
  simp [mkStepEvents]

/-- C5: each executed mutator receives as its second argument the state that
immediately precedes its own step — the output of the previous step, not the
state at the start of the batch; and in the documented scenario a mutator
reading `priorState.count` on state `count = 3` and writing `count + 1`
yields resolved state `count = 4`. -/
theorem mutator_receives_prior_step_state [DecidableEq σ]
    (isDev hasListener : Bool) (ms : List (σ → σ)) (s : σ) (dpId fuel : Nat) :
    mutatorArgs (updateEvents isDev hasListener (noListenerAdds σ) (fuel + 1)
        (ms.map pureUM) dpId (idleCtx s)) = prefixStates ms s
    ∧ (update false false (noListenerAdds CountState) 1
          [fun _ old => Except.ok ⟨old.count + 1⟩] 0 (idleCtx ⟨3⟩)).map
          (fun r => (r.1.state, allResolutions r.2.1))
        = some (⟨4⟩, [(0, ⟨4⟩)]) := by
  constructor
  · simp only [updateEvents, update, updateLoop_pure]
    exact mutatorArgs_pureBatch isDev hasListener dpId ms s
  · rfl

/-- C6: the patches passed to the change listener are exactly the snapshot
engine's diff for the step; that diff is non-empty precisely when diagnostic
mode is enabled and the step changed the state, and is the empty sequence
(diff computation skipped) whenever diagnostic mode is disabled. -/
theorem patches_nonempty_iff_dev_and_write [DecidableEq σ] (isDev : Bool)
    (ms : List (σ → σ)) (s : σ) (dpId fuel : Nat) (a b : σ) :
    listenedPatches (updateEvents isDev true (noListenerAdds σ) (fuel + 1)
        (ms.map pureUM) dpId (idleCtx s))
      = (runStates ms s).map (fun p => patchesFor isDev p.1 p.2)
    ∧ (patchesFor isDev a b ≠ [] ↔ (isDev = true ∧ b ≠ a)) := by
  constructor
  · simp only [updateEvents, update, updateLoop_pure]
    exact listenedPatches_pureBatch isDev dpId ms s
  · unfold patchesFor
    cases isDev <;> by_cases hab : b = a <;> simp [hab]

/-- C7: calling `useStore` without an established provider bridge — in
particular on the default context value — fails synchronously with the
documented message; neither the state nor the update capability is
returned. -/
theorem usestore_without_provider_throws (ctx : StoreCtx σ)
    (init : InitialState σ) :
    useStoreModel { ctx with hasProvider := false }
      = Except.error missingProviderMessage
    ∧ useStoreModel (contextBase init) = Except.error missingProviderMessage :=
  ⟨rfl, rfl⟩

/-- C8 counterexample: with a producer initial state, constructing the store
and mounting one connect-wrapped component evaluates the producer twice —
`createStore` runs `stateReader()` once and `connect` hands `stateReader` to
`useState`, which invokes it again at mount — refuting the claim that the
producer is evaluated exactly once at construction. -/
theorem producer_reevaluated_at_mount_counterexample :
    producerCallsAfterMounts (InitialState.producer fun _ => (99 : Nat)) 1 = 2
    ∧ producerCallsAfterMounts (InitialState.producer fun _ => (99 : Nat)) 1 ≠ 1 := by
  constructor <;> decide

/-- C8 amended: a producer initial state is evaluated once at container
construction and once more at each mount of a connect-wrapped component; a
literal initial state is never evaluated as a producer. -/
theorem producer_evaluation_counts (f : Unit → σ) (s : σ) (mounts : Nat) :
    producerCallsAfterMounts (InitialState.producer f) mounts = 1 + mounts
    ∧ producerCallsAfterMounts (InitialState.literal s) mounts = 0 := by
  constructor <;>
    simp [producerCallsAfterMounts, createStoreProducerCalls,
          connectMountProducerCalls, runStateReader]

/-- C9: a throwing mutator propagates its exception synchronously out of the
`update` call that triggered the drain, with the failing step already removed
from the queue, no effects emitted, and the scheduler left in the Draining
state; a throwing step at the head of any drained queue likewise aborts the
loop leaving the remaining steps un-drained; and on a container stuck in the
Draining state every subsequent `update` call enqueues its steps but applies
none of them and resolves nothing. -/
theorem throwing_mutator_propagates_and_blocks [DecidableEq σ]
    (isDev hasListener : Bool) (la : σ → σ → List (QItem σ)) (e : String)
    (rems ums : List (UserMutator σ)) (adds : σ → List (QItem σ))
    (dp : Option Nat) (rest : List (QItem σ)) (s : σ) (dpId fuel : Nat)
    (ctx : StoreCtx σ) :
    update isDev hasListener (noListenerAdds σ) (fuel + 1)
        (throwUM e :: rems) dpId (idleCtx s)
      = some (⟨s, true, [], true⟩, [], some e)
    ∧ flushLoop isDev hasListener la (fuel + 1)
        (QItem.mk (fun _ => Except.error e) adds dp :: rest) s
      = some ⟨rest, s, true, [], some e⟩
    ∧ update isDev hasListener la fuel ums dpId { ctx with isFlushing := true }
      = some ({ ctx with isFlushing := true,
                         mutatorsQueue := ctx.mutatorsQueue ++ mkBatchItems dpId ums },
              [], none) :=
  ⟨rfl, rfl, updateLoop_flushing isDev hasListener la fuel dpId ums _ rfl⟩

/-- C10: an `update` call with zero mutators enqueues nothing, leaves the
container untouched, emits no events — so neither the snapshot engine nor the
change listener runs — and its promise is never settled: the trace contains
no resolution for it and the container never rejects. -/
theorem empty_update_enqueues_nothing_never_settles [DecidableEq σ]
    (isDev hasListener : Bool) (la : σ → σ → List (QItem σ))
    (fuel dpId : Nat) (ctx : StoreCtx σ) :
    update isDev hasListener la fuel [] dpId ctx = some (ctx, [], none)
    ∧ updateEvents isDev hasListener la fuel [] dpId ctx = []
    ∧ allResolutions (updateEvents isDev hasListener la fuel [] dpId ctx)
      = ([] : List (Nat × σ))
    ∧ listenedOldNew (updateEvents isDev hasListener la fuel [] dpId ctx)
      = ([] : List (σ × σ)) :=
  ⟨rfl, rfl, rfl, rfl⟩

end Storelet
